import Mathlib

/-!
# Verification of the news-headline trading-signal pipeline

Shallow embedding of `src/news_signal_ollama.py`: the prompt builder,
the signal validator (the post-response part of
`get_trading_signal_from_headline`, lines 50–67), the decision
interpreter (`interpret_signal`, lines 70–98), and the signal recorder
(`log_signal`, lines 129–156).

Python values produced by JSON decoding are modelled by `JsonValue`;
JSON numbers are modelled as rationals (`ℚ`).  Python exceptions are
modelled by `PyError`; a function that can raise returns
`Except PyError α`.  Console output is modelled as the list of strings
passed to `print`, in order.  The durable CSV log is modelled at the
row level: a file state is `Option (List (List String))`, where `none`
means the file does not exist and each row is a list of cell strings.
-/

namespace TradingBot

/-- A Python value decoded from JSON: `None`, `bool`, a number
(modelled as `ℚ`), `str`, `list`, or `dict` (an association list of
string keys, in insertion order, keys unique as produced by the JSON
decoder). -/
inductive JsonValue where
  | null : JsonValue
  | bool (b : Bool) : JsonValue
  | num (q : ℚ) : JsonValue
  | str (s : String) : JsonValue
  | arr (xs : List JsonValue) : JsonValue
  | obj (fields : List (String × JsonValue)) : JsonValue

/-- The Python exceptions the embedded code can raise. -/
inductive PyError where
  | typeError : PyError
  | valueError : PyError
  | attributeError : PyError
  | keyError : PyError
deriving DecidableEq

/-! ## Model of `json.loads`

A recursive-descent JSON parser modelling Python's `json.loads`
(called at line 54 of the source).  `none` models a raised
`json.JSONDecodeError`.  Faithful on the structure the claims depend
on: which texts decode, and to which value shape (object vs. array
vs. scalar), including duplicate object keys resolving last-wins.
Simplifications that no claim depends on: the leading-zero restriction
on number literals and the `NaN`/`Infinity` extensions are not
modelled. -/

/-- JSON whitespace (space, tab, newline, carriage return). -/
def isJsonWs (c : Char) : Bool :=
  c == ' ' || c == '\t' || c == '\n' || c == '\r'

/-- Drop leading JSON whitespace. -/
def skipWs : List Char → List Char
  | [] => []
  | c :: cs => if isJsonWs c then skipWs cs else c :: cs

/-- Decimal digit value. -/
def digitVal (c : Char) : Option Nat :=
  if '0' ≤ c ∧ c ≤ '9' then some (c.toNat - '0'.toNat) else none

/-- Hexadecimal digit value (for `\uXXXX` escapes). -/
def hexVal (c : Char) : Option Nat :=
  if '0' ≤ c ∧ c ≤ '9' then some (c.toNat - '0'.toNat)
  else if 'a' ≤ c ∧ c ≤ 'f' then some (c.toNat - 'a'.toNat + 10)
  else if 'A' ≤ c ∧ c ≤ 'F' then some (c.toNat - 'A'.toNat + 10)
  else none

/-- Parse a maximal run of decimal digits, returning the accumulated
value, the number of digits consumed, and the rest. -/
def parseDigits (acc : Nat) (count : Nat) : List Char → Nat × Nat × List Char
  | [] => (acc, count, [])
  | c :: cs =>
    match digitVal c with
    | some d => parseDigits (acc * 10 + d) (count + 1) cs
    | none => (acc, count, c :: cs)

/-- Assemble the rational value `±(ip.fp) · 10^(±ev)` of a JSON
number literal, where `fp` has `fc` digits, using only integer
arithmetic and `mkRat`. -/
def ratOfParts (neg : Bool) (ip fp fc : Nat) (eneg : Bool) (ev : Nat) : ℚ :=
  let mantissa : Int := ((ip * 10 ^ fc + fp : Nat) : Int)
  let mantissa : Int := if neg then -mantissa else mantissa
  if eneg then mkRat mantissa (10 ^ (fc + ev))
  else mkRat (mantissa * 10 ^ ev) (10 ^ fc)

/-- Parse a JSON number starting at the given characters (sign not
yet consumed).  Returns the rational value and the rest. -/
def parseNumber (cs : List Char) : Option (ℚ × List Char) :=
  let (neg, cs₁) := match cs with
    | '-' :: rest => (true, rest)
    | _ => (false, cs)
  let (ip, ic, cs₂) := parseDigits 0 0 cs₁
  if ic = 0 then none else
  match cs₂ with
  | '.' :: rest =>
    let (fp, fc, rest') := parseDigits 0 0 rest
    if fc = 0 then none else parseNumberExp neg ip fp fc rest'
  | _ => parseNumberExp neg ip 0 0 cs₂
where
  /-- Parse the optional exponent part and assemble the value. -/
  parseNumberExp (neg : Bool) (ip fp fc : Nat) (cs : List Char) :
      Option (ℚ × List Char) :=
    match cs with
    | 'e' :: rest => parseNumberExpTail neg ip fp fc rest
    | 'E' :: rest => parseNumberExpTail neg ip fp fc rest
    | _ => some (ratOfParts neg ip fp fc false 0, cs)
  /-- Parse the exponent digits after `e`/`E`. -/
  parseNumberExpTail (neg : Bool) (ip fp fc : Nat) (cs : List Char) :
      Option (ℚ × List Char) :=
    let (eneg, cs₁) := match cs with
      | '-' :: rest => (true, rest)
      | '+' :: rest => (false, rest)
      | _ => (false, cs)
    let (ev, ec, cs₂) := parseDigits 0 0 cs₁
    if ec = 0 then none else
    some (ratOfParts neg ip fp fc eneg ev, cs₂)

/-- Parse the body of a JSON string after the opening quote, handling
escapes; returns the decoded string and the rest after the closing
quote. -/
def parseStringBody (fuel : Nat) (acc : List Char) (cs : List Char) :
    Option (String × List Char) :=
  match fuel, cs with
  | 0, _ => none
  | _, [] => none
  | fuel + 1, c :: cs =>
    if c == '"' then some (String.mk acc.reverse, cs)
    else if c == '\\' then
      match cs with
      | [] => none
      | e :: cs' =>
        if e == '"' then parseStringBody fuel ('"' :: acc) cs'
        else if e == '\\' then parseStringBody fuel ('\\' :: acc) cs'
        else if e == '/' then parseStringBody fuel ('/' :: acc) cs'
        else if e == 'b' then parseStringBody fuel ('\x08' :: acc) cs'
        else if e == 'f' then parseStringBody fuel ('\x0c' :: acc) cs'
        else if e == 'n' then parseStringBody fuel ('\n' :: acc) cs'
        else if e == 'r' then parseStringBody fuel ('\r' :: acc) cs'
        else if e == 't' then parseStringBody fuel ('\t' :: acc) cs'
        else if e == 'u' then
          match cs' with
          | a :: b :: c₁ :: d :: cs'' =>
            match hexVal a, hexVal b, hexVal c₁, hexVal d with
            | some ha, some hb, some hc, some hd =>
              let n := ((ha * 16 + hb) * 16 + hc) * 16 + hd
              parseStringBody fuel (Char.ofNat n :: acc) cs''
            | _, _, _, _ => none
          | _ => none
        else none
    else parseStringBody fuel (c :: acc) cs

/-- Insert a key/value pair into a decoded object the way a Python
dict does: an existing key keeps its position but takes the new value
(last value wins); a new key is appended. -/
def insertKV (fields : List (String × JsonValue)) (k : String) (v : JsonValue) :
    List (String × JsonValue) :=
  match fields with
  | [] => [(k, v)]
  | (k', v') :: rest =>
    if k' == k then (k', v) :: rest else (k', v') :: insertKV rest k v

/-- A pending task of the recursive-descent parser: parse one value,
the elements of an array, or the members of an object. -/
inductive ParseTask where
  | val (cs : List Char) : ParseTask
  | elems (acc : List JsonValue) (cs : List Char) : ParseTask
  | members (acc : List (String × JsonValue)) (cs : List Char) : ParseTask

/-- The recursive-descent parser, structurally recursive on a fuel
that bounds the recursion depth.
  - `.val cs`: parse one JSON value after skipping whitespace.
  - `.elems acc cs`: parse the remaining elements of a non-empty
    array, `acc` holding the elements so far in reverse.
  - `.members acc cs`: parse the remaining `"key": value` members of
    a non-empty object. -/
def parseCore : Nat → ParseTask → Option (JsonValue × List Char)
  | 0, _ => none
  | fuel + 1, .val cs =>
    match skipWs cs with
    | [] => none
    | c :: cs' =>
      if c == 'n' then
        match cs' with
        | 'u' :: 'l' :: 'l' :: rest => some (.null, rest)
        | _ => none
      else if c == 't' then
        match cs' with
        | 'r' :: 'u' :: 'e' :: rest => some (.bool true, rest)
        | _ => none
      else if c == 'f' then
        match cs' with
        | 'a' :: 'l' :: 's' :: 'e' :: rest => some (.bool false, rest)
        | _ => none
      else if c == '"' then
        match parseStringBody (cs'.length + 1) [] cs' with
        | some (s, rest) => some (.str s, rest)
        | none => none
      else if c == '[' then
        match skipWs cs' with
        | ']' :: rest => some (.arr [], rest)
        | cs'' => parseCore fuel (.elems [] cs'')
      else if c == '\x7b' then
        match skipWs cs' with
        | '\x7d' :: rest => some (.obj [], rest)
        | cs'' => parseCore fuel (.members [] cs'')
      else if c == '-' || (digitVal c).isSome then
        match parseNumber (c :: cs') with
        | some (q, rest) => some (.num q, rest)
        | none => none
      else none
  | fuel + 1, .elems acc cs =>
    match parseCore fuel (.val cs) with
    | none => none
    | some (v, rest) =>
      match skipWs rest with
      | ',' :: rest' => parseCore fuel (.elems (v :: acc) rest')
      | ']' :: rest' => some (.arr (v :: acc).reverse, rest')
      | _ => none
  | fuel + 1, .members acc cs =>
    match skipWs cs with
    | '"' :: cs' =>
      match parseStringBody (cs'.length + 1) [] cs' with
      | none => none
      | some (k, rest) =>
        match skipWs rest with
        | ':' :: rest' =>
          match parseCore fuel (.val rest') with
          | none => none
          | some (v, rest'') =>
            match skipWs rest'' with
            | ',' :: rest''' => parseCore fuel (.members (insertKV acc k v) rest''')
            | '\x7d' :: rest''' => some (.obj (insertKV acc k v), rest''')
            | _ => none
        | _ => none
    | _ => none

/-- Model of Python `json.loads` (source line 54): parse one JSON
value, require only whitespace after it; `none` models a raised
`json.JSONDecodeError`. -/
def json_loads (s : String) : Option JsonValue :=
  match parseCore (2 * s.data.length + 4) (.val s.data) with
  | none => none
  | some (v, rest) =>
    match skipWs rest with
    | [] => some v
    | _ => none

/-! ## The Signal Validator

Lines 50–67 of `get_trading_signal_from_headline`: everything after
the backend returns `raw_content`.  The `ollama.chat` call itself (the
Model Client Adapter) is the function's only other part; the validator
is a pure function of the trimmed raw response text. -/

/-- The required key set of line 61. -/
def required_keys : List String :=
  ["sentiment", "confidence", "direction", "reason"]

/-- Line 62's `required_keys.issubset(data.keys())`, on a decoded
object's field list. -/
def requiredSubset (fields : List (String × JsonValue)) : Bool :=
  required_keys.all fun k => (fields.map Prod.fst).contains k

/-- Outcome of the validator: a valid Signal (the parsed record is
returned), `None` (the "no signal" outcome, after printing a
diagnostic), or an uncaught Python exception escaping to the caller. -/
inductive ValidateResult where
  | signal (v : JsonValue) : ValidateResult
  | noSignal : ValidateResult
  | raised (e : PyError) : ValidateResult

/-- Lines 52–67 of the source: `json.loads` under a
`try`/`except json.JSONDecodeError`, then `data.keys()` (an
`AttributeError` on any non-dict value, and that exception is outside
the `try`), then the `issubset` test of line 62, returning `data`
unchanged when it passes and `None` when it fails. -/
def validate_raw_signal (raw_content : String) : ValidateResult :=
  match json_loads raw_content with
  | none => .noSignal
  | some data =>
    match data with
    | .obj fields =>
      if requiredSubset fields then .signal (.obj fields) else .noSignal
    | _ => .raised .attributeError

/-! ## Python value rendering

`str()` as used by the f-strings of lines 81–83 and by the CSV writer.
The exact text of a rendered number or nested container is not
load-bearing for any claim; numbers are rendered from the rational
value (`9/10` style for non-integers) rather than via Python's float
`repr` shortest-digits algorithm. -/

/-- Render a rational the way this model prints numbers. -/
def ratRepr (q : ℚ) : String :=
  if q.den = 1 then toString q.num
  else toString q.num ++ "/" ++ toString q.den

/-- Python `repr` of a decoded value, fuelled for the nested
recursion through lists and dicts. -/
def pyReprF : Nat → JsonValue → String
  | 0, _ => ""
  | _ + 1, .null => "None"
  | _ + 1, .bool true => "True"
  | _ + 1, .bool false => "False"
  | _ + 1, .num q => ratRepr q
  | _ + 1, .str s => "'" ++ s ++ "'"
  | fuel + 1, .arr xs =>
    "[" ++ String.intercalate ", " (xs.map (pyReprF fuel)) ++ "]"
  | fuel + 1, .obj kvs =>
    "\x7b" ++
      String.intercalate ", "
        (kvs.map fun kv => "'" ++ kv.1 ++ "': " ++ pyReprF fuel kv.2) ++
    "\x7d"

mutual

/-- Structural size of a decoded value; bounds the nesting depth, so
it is a sufficient fuel for `pyReprF`. -/
def jsonSize : JsonValue → Nat
  | .null => 1
  | .bool _ => 1
  | .num _ => 1
  | .str _ => 1
  | .arr xs => 1 + jsonSizeList xs
  | .obj kvs => 1 + jsonSizeKVs kvs

/-- Total size of a list of decoded values. -/
def jsonSizeList : List JsonValue → Nat
  | [] => 0
  | v :: vs => 1 + jsonSize v + jsonSizeList vs

/-- Total size of a decoded object's field list. -/
def jsonSizeKVs : List (String × JsonValue) → Nat
  | [] => 0
  | kv :: kvs => 1 + jsonSize kv.2 + jsonSizeKVs kvs

end

/-- Python `str()` of a decoded value.  `jsonSize v` bounds the
nesting depth, so the fuel of `pyReprF` never runs out. -/
def pyStr (v : JsonValue) : String :=
  match v with
  | .str s => s
  | v => pyReprF (jsonSize v) v

/-! ## The Decision Interpreter

`interpret_signal`, lines 70–98.  Each `print(x)` appends the string
`x` to the output; the function returns the output list, or the
Python exception raised mid-way. -/

/-- Python dict subscription `signal[k]` (lines 74–77): `KeyError`
when the key is absent. -/
def dictGetItem (signal : List (String × JsonValue)) (k : String) :
    Except PyError JsonValue :=
  match signal.lookup k with
  | some v => .ok v
  | none => .error .keyError

/-- Python dict `signal.get(k)` (lines 136–139): `None` when the key
is absent. -/
def dictGet (signal : List (String × JsonValue)) (k : String) :
    Option JsonValue :=
  signal.lookup k

/-- The f-string `f"{confidence:.2f}"` of line 82: fixed-point
formatting with two decimals.  Defined for numbers and for `bool`
(a Python `int` subclass); a string raises `ValueError` ("Unknown
format code 'f'"), any other type raises `TypeError`.  Rounding is
modelled with `round` (ties away from Python's half-even, which no
claim depends on). -/
def format2f : JsonValue → Except PyError String
  | .num q =>
    let n : ℤ := round (q * 100)
    let sign := if n < 0 then "-" else ""
    let a := n.natAbs
    let frac := a % 100
    let fracStr := (if frac < 10 then "0" else "") ++ toString frac
    .ok (sign ++ toString (a / 100) ++ "." ++ fracStr)
  | .bool true => .ok "1.00"
  | .bool false => .ok "0.00"
  | .str _ => .error .valueError
  | _ => .error .typeError

/-- The comparison `confidence < 0.6` of line 88.  Numbers compare
numerically, `bool` compares as the Python ints 0/1; comparing any
other type with a float raises `TypeError`. -/
def pyLtNum : JsonValue → ℚ → Except PyError Bool
  | .num q, r => .ok (decide (q < r))
  | .bool b, r => .ok (decide ((if b then (1 : ℚ) else 0) < r))
  | _, _ => .error .typeError

/-- Python `==` against a string literal (lines 88, 91, 93): true
exactly for the equal string, false for every other value (Python
`==` across types is false, never an error). -/
def pyEqStr (v : JsonValue) (s : String) : Bool :=
  match v with
  | .str t => t == s
  | _ => false

/-- The four action strings printed by lines 89–96. -/
def actionStayFlat : String :=
  "- Stay FLAT (no trade). Confidence too low or neutral signal."

/-- Action string of line 92. -/
def actionLong : String := "- Consider LONG GBP/USD with small risk."

/-- Action string of line 94. -/
def actionShort : String := "- Consider SHORT GBP/USD with small risk."

/-- Action string of line 96. -/
def actionUnclear : String := "- Stay FLAT (direction unclear)."

/-- The fixed warning of line 98. -/
def warningLine : String :=
  "⚠️ WARNING: This is a toy signal. Use ONLY for learning and backtesting, not live money."

/-- `interpret_signal` (lines 70–98): look up the four fields
(`KeyError` if absent), print the header block (the confidence
formatted `.2f`), then print exactly one of the four action strings
according to the rule of lines 88–96, then the warning.  Returns the
printed lines in order, or the first exception raised. -/
def interpret_signal (signal : List (String × JsonValue)) :
    Except PyError (List String) :=
  match dictGetItem signal "sentiment" with
  | .error e => .error e
  | .ok sentiment =>
  match dictGetItem signal "confidence" with
  | .error e => .error e
  | .ok confidence =>
  match dictGetItem signal "direction" with
  | .error e => .error e
  | .ok direction =>
  match dictGetItem signal "reason" with
  | .error e => .error e
  | .ok reason =>
  match format2f confidence with
  | .error e => .error e
  | .ok confStr =>
  let headerLines : List String :=
    ["\n--- AI Trading Signal ---",
     "Sentiment : " ++ pyStr sentiment,
     "Direction : " ++ pyStr direction,
     "Confidence: " ++ confStr,
     "Reason    : " ++ pyStr reason,
     "\nSuggested action (for testing / demo only):"]
  match pyLtNum confidence (0.6 : ℚ) with
  | .error e => .error e
  | .ok lt =>
  let action :=
    if lt || pyEqStr direction "flat" || pyEqStr sentiment "neutral" then
      actionStayFlat
    else if pyEqStr direction "long" then actionLong
    else if pyEqStr direction "short" then actionShort
    else actionUnclear
  .ok (headerLines ++ [action, "\n" ++ warningLine])

/-! ## The Prompt Builder

The f-string of lines 14–41: a fixed template with the headline
spliced in, quoted, at the very end.  Python's `{{`/`}}` render as
literal braces in the prompt. -/

/-- Everything of the prompt template before the quoted headline. -/
def promptPre : String :=
  "\nYou are a systematic trading assistant.\n\nInstrument: GBP/USD\nTime horizon: next 1-24 hours.\n\nTask:\n1. Read the following news headline.\n2. Evaluate its *short-term* likely impact on GBP/USD.\n3. Respond ONLY in strict JSON with this exact structure:\n\n\x7b\n  \"sentiment\": \"bullish\" | \"bearish\" | \"neutral\",\n  \"confidence\": float between 0 and 1,\n  \"direction\": \"long\" | \"short\" | \"flat\",\n  \"reason\": \"very short explanation in one sentence\"\n\x7d\n\nRules:\n- \"bullish\" means positive for EUR against USD (EUR/USD up).\n- \"bearish\" means negative for EUR against USD (EUR/USD down).\n- \"neutral\" means unclear or no strong edge.\n- \"long\" = buy GBP/USD, \"short\" = sell GBP/USD, \"flat\" = no position.\n- If the headline is ambiguous, prefer \"neutral\" and \"flat\".\n- Do NOT include any text before or after the JSON.\n\nHeadline: "

/-- The prompt of lines 14–41: the fixed template, then the headline
verbatim between double quotes, then the final newline before the
closing `\"\"\"`. -/
def build_prompt (headline : String) : String :=
  promptPre ++ "\"" ++ headline ++ "\"" ++ "\n"

/-- Substring containment, stated on the underlying character
lists. -/
abbrev containsStr (s t : String) : Prop :=
  t.data <:+: s.data

/-! ## The Signal Recorder

`log_signal`, lines 129–156.  The filesystem state of the log file is
`Option (List (List String))`: `none` when the file does not exist,
otherwise the list of CSV rows, each a list of cell strings.  The
timestamp `datetime.utcnow().isoformat()` of line 134 is a parameter
(generated at append time by the environment).  The read-open
`try`/`except FileNotFoundError` of lines 143–147 succeeds exactly
when the file exists,
whatever its contents; `open(..., "a")` appends, creating an empty
file if absent.  `csv.DictWriter.writerow` renders `None` as an empty
cell and every other value with `str()`. -/

/-- One CSV cell from a `signal.get(...)` result: `None` becomes the
empty string, anything else is rendered with `str()`. -/
def csvCell : Option JsonValue → String
  | none => ""
  | some v => pyStr v

/-- The header row of line 152's `fieldnames`. -/
def logHeader : List String :=
  ["timestamp", "headline", "sentiment", "direction", "confidence", "reason"]

/-- The data row of lines 133–140, in the fieldnames order of
line 152. -/
def mkRow (ts headline : String) (signal : List (String × JsonValue)) :
    List String :=
  [ts, headline,
   csvCell (dictGet signal "sentiment"),
   csvCell (dictGet signal "direction"),
   csvCell (dictGet signal "confidence"),
   csvCell (dictGet signal "reason")]

/-- `log_signal` (lines 129–156): build the row, test existence by
opening for read, open for append (creating the file when absent),
write the header only when the read-open failed, then write the
row. -/
def log_signal (ts headline : String) (signal : List (String × JsonValue))
    (fs : Option (List (List String))) : Option (List (List String)) :=
  let file_exists := fs.isSome
  let contents := fs.getD []
  some (contents ++ (if file_exists then [] else [logHeader])
    ++ [mkRow ts headline signal])

/-- A sequence of `log_signal` calls, each `(timestamp, headline,
signal)`, threaded through the file state in call order. -/
def log_signal_run
    (calls : List (String × String × List (String × JsonValue)))
    (fs : Option (List (List String))) : Option (List (List String)) :=
  calls.foldl (fun fs c => log_signal c.1 c.2.1 c.2.2 fs) fs

/-! ## Helper lemmas -/

/-- `pyEqStr` decides equality with a string value. -/
theorem pyEqStr_eq_true (v : JsonValue) (s : String) :
    pyEqStr v s = true ↔ v = .str s := by
  cases v <;> simp [pyEqStr]

/-- Substring containment is preserved by appending on the right. -/
theorem containsStr_append_right (s x t : String) (h : containsStr s t) :
    containsStr (s ++ x) t := by
  obtain ⟨a, b, hab⟩ := h
  exact ⟨a, b ++ x.data, by rw [String.data_append, ← hab]; simp⟩

/-- Once the log file exists, a run of `log_signal` calls appends
exactly one data row per call, in order. -/
theorem log_signal_run_existing
    (calls : List (String × String × List (String × JsonValue)))
    (l : List (List String)) :
    log_signal_run calls (some l) =
      some (l ++ calls.map fun c => mkRow c.1 c.2.1 c.2.2) := by
  induction calls generalizing l with
  | nil => simp [log_signal_run]
  | cons c cs ih =>
    simp only [log_signal_run, List.foldl_cons] at ih ⊢
    rw [show log_signal c.1 c.2.1 c.2.2 (some l)
          = some (l ++ [mkRow c.1 c.2.1 c.2.2]) by simp [log_signal]]
    rw [ih]
    simp

/-! ## Claims about the Signal Validator -/

/-- **C1.**  For every raw model text that parses as a structured
key-value record, the Signal Validator returns the parsed record
unchanged as a valid Signal if and only if the required key set
`{sentiment, confidence, direction, reason}` is a subset of the
record's keys — regardless of the field values — and returns `None`
("no signal") when some required key is missing. -/
theorem validator_required_keys_iff (raw : String)
    (fields : List (String × JsonValue))
    (hparse : json_loads raw = some (.obj fields)) :
    (validate_raw_signal raw = .signal (.obj fields)
       ↔ requiredSubset fields = true)
    ∧ (requiredSubset fields = false →
       validate_raw_signal raw = .noSignal) := by
  unfold validate_raw_signal
  rw [hparse]
  rcases h : requiredSubset fields <;> simp [h]

/-- Witness for C1: a record with all four keys but out-of-enumeration
values (`sentiment "xyz"`, `confidence 2.5`, `direction "up"`) is
returned unchanged as a valid Signal. -/
theorem validator_required_keys_iff_witness :
    validate_raw_signal
      "\x7b\"sentiment\": \"xyz\", \"confidence\": 2.5, \"direction\": \"up\", \"reason\": \"x\"\x7d"
      = .signal (.obj [("sentiment", .str "xyz"), ("confidence", .num (mkRat 5 2)),
          ("direction", .str "up"), ("reason", .str "x")]) :=
  (validator_required_keys_iff
      "\x7b\"sentiment\": \"xyz\", \"confidence\": 2.5, \"direction\": \"up\", \"reason\": \"x\"\x7d"
      [("sentiment", .str "xyz"), ("confidence", .num (mkRat 5 2)),
       ("direction", .str "up"), ("reason", .str "x")]
      rfl).1.mpr rfl

/-- **C4 counterexample.**  The raw text `"[1, 2]"` is non-record
structured data (a JSON array); the claim says the validator returns
"no signal" and lets no exception escape, but the code's
`data.keys()` raises an `AttributeError` that is outside the
`try`/`except` and escapes to the caller. -/
theorem validator_array_raises :
    validate_raw_signal "[1, 2]" = .raised .attributeError ∧
    validate_raw_signal "[1, 2]" ≠ .noSignal := by
  refine ⟨rfl, ?_⟩
  intro h
  rw [show validate_raw_signal "[1, 2]" = .raised .attributeError from rfl] at h
  exact ValidateResult.noConfusion h

/-- **C4 (amended).**  For raw text that fails to parse as JSON the
validator returns "no signal" as a recoverable outcome; but for raw
text that parses to a non-record value (array, number, string,
boolean, or null) the `data.keys()` attribute access raises an
`AttributeError` that escapes to the caller. -/
theorem validator_malformed_noSignal (raw : String) :
    (json_loads raw = none → validate_raw_signal raw = .noSignal)
    ∧ (∀ v, json_loads raw = some v → (∀ fields, v ≠ .obj fields) →
        validate_raw_signal raw = .raised .attributeError) := by
  constructor
  · intro h
    simp [validate_raw_signal, h]
  · intro v h hv
    unfold validate_raw_signal
    rw [h]
    cases v with
    | obj fields => exact absurd rfl (hv fields)
    | _ => rfl

/-- Witness for C4 (amended): malformed text yields "no signal"; a
bare JSON number raises `AttributeError`. -/
theorem validator_malformed_noSignal_witness :
    validate_raw_signal "not json" = .noSignal ∧
    validate_raw_signal "5" = .raised .attributeError :=
  ⟨(validator_malformed_noSignal "not json").1 rfl,
   (validator_malformed_noSignal "5").2 (.num 5)
     (show json_loads "5" = some (.num 5) from rfl)
     (fun _ h => JsonValue.noConfusion h)⟩

/-- **C8.**  The Signal Validator is deterministic: validating the
same raw text twice yields the same outcome (it is a pure function of
the text). -/
theorem validator_deterministic (t₁ t₂ : String) (h : t₁ = t₂) :
    validate_raw_signal t₁ = validate_raw_signal t₂ := by rw [h]

/-- Witness for C8 at a concrete raw text. -/
theorem validator_deterministic_witness :
    validate_raw_signal "\x7b\"a\": 1\x7d" = validate_raw_signal "\x7b\"a\": 1\x7d" :=
  validator_deterministic _ _ rfl

/-! ## Claims about the Decision Interpreter -/

/-- **C2.**  For every valid Signal whose confidence is a number, the
Decision Interpreter completes and emits (as the seventh of its eight
output lines) the stay-flat action exactly when
`confidence < 0.6 ∨ direction = "flat" ∨ sentiment = "neutral"`;
otherwise the long action when `direction = "long"`, the short action
when `direction = "short"`, and the direction-unclear stay-flat
action for any other direction value. -/
theorem interpreter_action_rule
    (signal : List (String × JsonValue)) (sent dir reas : JsonValue) (q : ℚ)
    (hs : signal.lookup "sentiment" = some sent)
    (hc : signal.lookup "confidence" = some (.num q))
    (hd : signal.lookup "direction" = some dir)
    (hr : signal.lookup "reason" = some reas) :
    ∃ out, interpret_signal signal = .ok out ∧ out.length = 8 ∧
      (out.get? 6 = some actionStayFlat
        ↔ (q < 0.6 ∨ dir = .str "flat" ∨ sent = .str "neutral")) ∧
      (¬(q < 0.6 ∨ dir = .str "flat" ∨ sent = .str "neutral") →
        (dir = .str "long" → out.get? 6 = some actionLong) ∧
        (dir = .str "short" → out.get? 6 = some actionShort) ∧
        (dir ≠ .str "long" → dir ≠ .str "short" →
          out.get? 6 = some actionUnclear)) := by
  have h1 : dictGetItem signal "sentiment" = .ok sent := by
    simp [dictGetItem, hs]
  have h2 : dictGetItem signal "confidence" = .ok (.num q) := by
    simp [dictGetItem, hc]
  have h3 : dictGetItem signal "direction" = .ok dir := by
    simp [dictGetItem, hd]
  have h4 : dictGetItem signal "reason" = .ok reas := by
    simp [dictGetItem, hr]
  unfold interpret_signal
  rw [h1, h2, h3, h4]
  dsimp only [format2f, pyLtNum]
  by_cases hcond : q < 0.6 ∨ dir = .str "flat" ∨ sent = .str "neutral"
  · have hb : (decide (q < 0.6) || pyEqStr dir "flat"
        || pyEqStr sent "neutral") = true := by
      rcases hcond with h | h | h
      · simp [h]
      · simp [pyEqStr_eq_true, h]
      · simp [pyEqStr_eq_true, h]
    rw [hb]
    refine ⟨_, rfl, rfl, ?_, ?_⟩
    · simp [hcond]
    · exact fun h => absurd hcond h
  · have hb : (decide (q < 0.6) || pyEqStr dir "flat"
        || pyEqStr sent "neutral") = false := by
      rw [not_or, not_or] at hcond
      obtain ⟨hq, hdir, hsent⟩ := hcond
      simp only [Bool.or_eq_false_iff, decide_eq_false_iff_not]
      refine ⟨⟨hq, ?_⟩, ?_⟩
      · rcases hb : pyEqStr dir "flat" with _ | _
        · rfl
        · exact absurd ((pyEqStr_eq_true _ _).mp hb) hdir
      · rcases hb : pyEqStr sent "neutral" with _ | _
        · rfl
        · exact absurd ((pyEqStr_eq_true _ _).mp hb) hsent
    rw [hb]
    by_cases hdl : dir = .str "long"
    · have : pyEqStr dir "long" = true := (pyEqStr_eq_true _ _).mpr hdl
      rw [this]
      refine ⟨_, rfl, rfl, ?_, ?_⟩
      · constructor
        · intro h
          exact absurd (Option.some.inj h)
            (by decide : actionLong ≠ actionStayFlat)
        · intro h
          exact absurd h hcond
      · exact fun _ => ⟨fun _ => rfl,
          fun h => absurd (hdl.symm.trans h)
            (fun hh => by injection hh with hss; exact absurd hss (by decide)),
          fun h _ => absurd hdl h⟩
    · have hbl : pyEqStr dir "long" = false := by
        rcases hb' : pyEqStr dir "long" with _ | _
        · rfl
        · exact absurd ((pyEqStr_eq_true _ _).mp hb') hdl
      rw [hbl]
      by_cases hds : dir = .str "short"
      · have : pyEqStr dir "short" = true := (pyEqStr_eq_true _ _).mpr hds
        rw [this]
        refine ⟨_, rfl, rfl, ?_, ?_⟩
        · constructor
          · intro h
            exact absurd (Option.some.inj h)
              (by decide : actionShort ≠ actionStayFlat)
          · intro h
            exact absurd h hcond
        · exact fun _ => ⟨fun h => absurd h hdl, fun _ => rfl,
            fun _ h => absurd hds h⟩
      · have hbs : pyEqStr dir "short" = false := by
          rcases hb' : pyEqStr dir "short" with _ | _
          · rfl
          · exact absurd ((pyEqStr_eq_true _ _).mp hb') hds
        rw [hbs]
        refine ⟨_, rfl, rfl, ?_, ?_⟩
        · constructor
          · intro h
            exact absurd (Option.some.inj h)
              (by decide : actionUnclear ≠ actionStayFlat)
          · intro h
            exact absurd h hcond
        · exact fun _ => ⟨fun h => absurd h hdl, fun h => absurd h hds,
            fun _ _ => rfl⟩

/-- Witness for C2: the Signal `bullish / 0.9 / long / "x"` produces
the long action. -/
theorem interpreter_action_rule_witness :
    ∃ out, interpret_signal
      [("sentiment", .str "bullish"), ("confidence", .num 0.9),
       ("direction", .str "long"), ("reason", .str "x")] = .ok out ∧
      out.get? 6 = some actionLong := by
  obtain ⟨out, hout, _, _, himp⟩ :=
    interpreter_action_rule
      [("sentiment", .str "bullish"), ("confidence", .num 0.9),
       ("direction", .str "long"), ("reason", .str "x")]
      (.str "bullish") (.str "long") (.str "x") 0.9 rfl rfl rfl rfl
  refine ⟨out, hout, (himp ?_).1 rfl⟩
  rintro (h | h | h)
  · norm_num at h
  · injection h with hss; exact absurd hss (by decide)
  · injection h with hss; exact absurd hss (by decide)

/-- **C3 counterexample.**  A record with all four required keys but
the string confidence `"high"` is a valid Signal under §3's loose
invariant, yet `interpret_signal` raises a `ValueError` at the
`f"{confidence:.2f}"` format (and the `confidence < 0.6` comparison
would likewise raise `TypeError`), so the interpreter is not total
over valid Signals. -/
theorem interpreter_string_confidence_raises :
    interpret_signal
      [("sentiment", .str "bullish"), ("confidence", .str "high"),
       ("direction", .str "long"), ("reason", .str "x")]
      = .error .valueError := rfl

/-- **C3 (amended).**  The Decision Interpreter is total over every
record containing the four required keys whose `confidence` value is
a number (or a boolean, a Python `int` subclass): it completes and
emits output without raising.  (A non-numeric confidence such as the
string `"high"` instead raises, per the counterexample.) -/
theorem interpreter_total_on_numeric_confidence
    (signal : List (String × JsonValue)) (sent conf dir reas : JsonValue)
    (hs : signal.lookup "sentiment" = some sent)
    (hc : signal.lookup "confidence" = some conf)
    (hd : signal.lookup "direction" = some dir)
    (hr : signal.lookup "reason" = some reas)
    (hnum : (∃ q, conf = .num q) ∨ (∃ b, conf = .bool b)) :
    ∃ out, interpret_signal signal = .ok out := by
  have h1 : dictGetItem signal "sentiment" = .ok sent := by
    simp [dictGetItem, hs]
  have h2 : dictGetItem signal "confidence" = .ok conf := by
    simp [dictGetItem, hc]
  have h3 : dictGetItem signal "direction" = .ok dir := by
    simp [dictGetItem, hd]
  have h4 : dictGetItem signal "reason" = .ok reas := by
    simp [dictGetItem, hr]
  unfold interpret_signal
  rw [h1, h2, h3, h4]
  rcases hnum with ⟨q, rfl⟩ | ⟨b, rfl⟩
  · exact ⟨_, rfl⟩
  · cases b <;> exact ⟨_, rfl⟩

/-- Witness for C3 (amended) at a concrete Signal with numeric
confidence. -/
theorem interpreter_total_on_numeric_confidence_witness :
    ∃ out, interpret_signal
      [("sentiment", .str "neutral"), ("confidence", .num 1),
       ("direction", .str "flat"), ("reason", .str "ok")] = .ok out :=
  interpreter_total_on_numeric_confidence
    [("sentiment", .str "neutral"), ("confidence", .num 1),
     ("direction", .str "flat"), ("reason", .str "ok")]
    (.str "neutral") (.num 1) (.str "flat") (.str "ok")
    rfl rfl rfl rfl (.inl ⟨1, rfl⟩)

/-! ## Claim about the Prompt Builder -/

set_option maxRecDepth 40000 in
/-- **C7.**  For every non-empty headline, the prompt built for the
model contains the headline verbatim between double quotes, contains
the exact literal schema field names `sentiment`, `confidence`,
`direction` and `reason`, and contains the fixed role framing
"systematic trading assistant". -/
theorem prompt_contains_headline_and_schema (headline : String)
    (_hne : headline ≠ "") :
    containsStr (build_prompt headline) ("\"" ++ headline ++ "\"") ∧
    containsStr (build_prompt headline) "sentiment" ∧
    containsStr (build_prompt headline) "confidence" ∧
    containsStr (build_prompt headline) "direction" ∧
    containsStr (build_prompt headline) "reason" ∧
    containsStr (build_prompt headline) "systematic trading assistant" := by
  have hpre : ∀ t : String, containsStr promptPre t →
      containsStr (build_prompt headline) t := by
    intro t h
    exact containsStr_append_right _ _ _
      (containsStr_append_right _ _ _
        (containsStr_append_right _ _ _
          (containsStr_append_right _ _ _ h)))
  refine ⟨?_, hpre _ (by decide), hpre _ (by decide), hpre _ (by decide),
    hpre _ (by decide), hpre _ (by decide)⟩
  refine ⟨promptPre.data, ("\n" : String).data, ?_⟩
  simp [build_prompt, String.data_append, List.append_assoc]

/-- Witness for C7 at a concrete non-empty headline. -/
theorem prompt_contains_headline_and_schema_witness :
    containsStr (build_prompt "Fed raises rates")
      ("\"" ++ "Fed raises rates" ++ "\"") ∧
    containsStr (build_prompt "Fed raises rates") "sentiment" ∧
    containsStr (build_prompt "Fed raises rates") "confidence" ∧
    containsStr (build_prompt "Fed raises rates") "direction" ∧
    containsStr (build_prompt "Fed raises rates") "reason" ∧
    containsStr (build_prompt "Fed raises rates") "systematic trading assistant" :=
  prompt_contains_headline_and_schema "Fed raises rates" (by decide)

/-! ## Claims about the Signal Recorder -/

/-- **C5.**  Starting from a non-existent log file, any non-empty
sequence of `log_signal` calls leaves the log containing exactly one
header row naming the six columns followed by one data row per call,
in call order; and against an already-existing log (any later call,
including one from a new process instance) a call is a pure append of
its single data row: existing contents are kept unchanged and no
second header is written. -/
theorem recorder_append_law
    (calls : List (String × String × List (String × JsonValue)))
    (hne : calls ≠ []) :
    log_signal_run calls none =
      some (logHeader :: calls.map fun c => mkRow c.1 c.2.1 c.2.2) ∧
    ∀ ts headline signal l,
      log_signal ts headline signal (some l) =
        some (l ++ [mkRow ts headline signal]) := by
  constructor
  · cases calls with
    | nil => exact absurd rfl hne
    | cons c cs =>
      have h0 : log_signal c.1 c.2.1 c.2.2 none
          = some [logHeader, mkRow c.1 c.2.1 c.2.2] := by
        simp [log_signal]
      calc log_signal_run (c :: cs) none
          = log_signal_run cs (log_signal c.1 c.2.1 c.2.2 none) := rfl
        _ = log_signal_run cs (some [logHeader, mkRow c.1 c.2.1 c.2.2]) := by
            rw [h0]
        _ = some ([logHeader, mkRow c.1 c.2.1 c.2.2]
              ++ cs.map fun c => mkRow c.1 c.2.1 c.2.2) :=
            log_signal_run_existing cs _
        _ = some (logHeader :: (c :: cs).map fun c => mkRow c.1 c.2.1 c.2.2) := by
            simp
  · intro ts headline signal l
    simp [log_signal]

/-- Witness for C5: two calls against a fresh log yield the header
and two data rows in order; a further call against the existing log
appends its row only. -/
theorem recorder_append_law_witness :
    log_signal_run [("t1", "h1", []), ("t2", "h2", [])] none =
      some [logHeader, mkRow "t1" "h1" [], mkRow "t2" "h2" []] ∧
    log_signal "t3" "h3" [] (some [logHeader, mkRow "t1" "h1" [], mkRow "t2" "h2" []]) =
      some [logHeader, mkRow "t1" "h1" [], mkRow "t2" "h2" [], mkRow "t3" "h3" []] := by
  have h := recorder_append_law [("t1", "h1", []), ("t2", "h2", [])]
    (by simp)
  refine ⟨h.1, ?_⟩
  rw [h.2 "t3" "h3" [] [logHeader, mkRow "t1" "h1" [], mkRow "t2" "h2" []]]
  rfl

/-- **C6.**  For every headline and signal dict, `log_signal`
completes (no exception) and appends a data row; any of the four
signal fields that is absent from the dict is recorded as the empty
cell in that row. -/
theorem recorder_missing_fields_empty
    (ts headline : String) (signal : List (String × JsonValue))
    (fs : Option (List (List String))) :
    (∃ rows, log_signal ts headline signal fs = some rows ∧
      rows.getLast? = some (mkRow ts headline signal)) ∧
    (signal.lookup "sentiment" = none →
      (mkRow ts headline signal).get? 2 = some "") ∧
    (signal.lookup "direction" = none →
      (mkRow ts headline signal).get? 3 = some "") ∧
    (signal.lookup "confidence" = none →
      (mkRow ts headline signal).get? 4 = some "") ∧
    (signal.lookup "reason" = none →
      (mkRow ts headline signal).get? 5 = some "") := by
  refine ⟨⟨_, rfl, ?_⟩, ?_, ?_, ?_, ?_⟩
  · simp [log_signal]
  all_goals intro h
  all_goals simp [mkRow, dictGet, h, csvCell]

/-- Witness for C6: a signal missing `reason` (and every other
field) still yields a row, with empty cells for the missing
fields. -/
theorem recorder_missing_fields_empty_witness :
    (∃ rows, log_signal "t" "h" [("sentiment", .str "bullish")] none = some rows ∧
      rows.getLast? = some (mkRow "t" "h" [("sentiment", .str "bullish")])) ∧
    (mkRow "t" "h" [("sentiment", .str "bullish")]).get? 5 = some "" := by
  have h := recorder_missing_fields_empty "t" "h" [("sentiment", .str "bullish")] none
  exact ⟨h.1, h.2.2.2.2 rfl⟩

/-- **C9.**  The code tests log-file existence by opening the file
for reading, not by inspecting its content: when the log file exists
but is empty at call time, `log_signal` writes no header row and
appends the data row to the headerless file. -/
theorem recorder_empty_file_no_header
    (ts headline : String) (signal : List (String × JsonValue)) :
    log_signal ts headline signal (some []) =
      some [mkRow ts headline signal] := by
  simp [log_signal]

/-- **C10.**  The appended row has exactly the six columns
`timestamp, headline, sentiment, direction, confidence, reason`; a
key of the signal dict that is none of the four field names read by
`log_signal` never influences the row, so extra keys are silently
ignored and never appear in the log. -/
theorem recorder_ignores_extra_keys
    (ts headline : String) (signal : List (String × JsonValue))
    (fs : Option (List (List String))) (k : String) (v : JsonValue)
    (hk : k ∉ required_keys) :
    (mkRow ts headline signal).length = 6 ∧
    mkRow ts headline ((k, v) :: signal) = mkRow ts headline signal ∧
    log_signal ts headline ((k, v) :: signal) fs =
      log_signal ts headline signal fs := by
  simp only [required_keys, List.mem_cons, List.not_mem_nil, or_false,
    not_or] at hk
  obtain ⟨hk1, hk2, hk3, hk4⟩ := hk
  have hlk : ∀ k' : String, k' ≠ k →
      List.lookup k' ((k, v) :: signal) = List.lookup k' signal := by
    intro k' hne
    simp [List.lookup, beq_eq_false_iff_ne.mpr hne]
  have hrow : mkRow ts headline ((k, v) :: signal) = mkRow ts headline signal := by
    simp [mkRow, dictGet, hlk _ (Ne.symm hk1), hlk _ (Ne.symm hk2),
      hlk _ (Ne.symm hk3), hlk _ (Ne.symm hk4)]
  exact ⟨rfl, hrow, by simp [log_signal, hrow]⟩

/-- Witness for C10: an extra key `"note"` does not change the
appended row. -/
theorem recorder_ignores_extra_keys_witness :
    mkRow "t" "h" [("note", .str "extra"), ("sentiment", .str "bullish"),
        ("confidence", .num 1), ("direction", .str "long"), ("reason", .str "x")]
      = mkRow "t" "h" [("sentiment", .str "bullish"), ("confidence", .num 1),
        ("direction", .str "long"), ("reason", .str "x")] :=
  (recorder_ignores_extra_keys "t" "h"
    [("sentiment", .str "bullish"), ("confidence", .num 1),
     ("direction", .str "long"), ("reason", .str "x")]
    none "note" (.str "extra") (by decide)).2.1

end TradingBot
